import Mathlib

/-!
Verification development for the subchannel stream client
(`src/core/ext/filters/client_channel/subchannel_stream_client.cc`).

The embedding models the two cooperating state machines of the file:

* the outer `SubchannelStreamClient` controller (retry/backoff policy, call
  lifecycle ownership, shutdown), as a pure transition system over
  `ClientState` with an explicit event alphabet;
* the inner `CallState` protocol driver (message reception, decode, cancel,
  trailing-metadata completion), as pure functions over `AttemptState` and
  the per-completion `RecvOutcome` record.

Byte strings are `List Nat`; a received message is assembled from chunk
slices exactly as `DoneReadingRecvMessage` does (single-slice fast path,
otherwise a `memcpy` loop into a freshly allocated buffer, modelled by
`copyChunks`/`writeAt`).  Ghost counters (`created`, `armed`,
`timerRefTaken`, `timerRefReleased`, `orphanUnrefs`, `doubleStart`) record
the externally observable actions so that lifecycle claims can be stated.
-/

namespace SubchannelStream

/-! ### Status codes (grpc/status.h) -/

def GRPC_STATUS_OK : Nat := 0

def GRPC_STATUS_CANCELLED : Nat := 1

def GRPC_STATUS_UNKNOWN : Nat := 2

def GRPC_STATUS_DEADLINE_EXCEEDED : Nat := 4

def GRPC_STATUS_UNIMPLEMENTED : Nat := 12

def GRPC_STATUS_UNAVAILABLE : Nat := 14

/-! ### Message assembly (`DoneReadingRecvMessage`, `PullSliceFromRecvMessage`) -/

/-- Model of `PullSliceFromRecvMessage` succeeding: `grpc_slice_buffer_add`
appends the pulled slice at the end of `recv_message_buffer_`. -/
def pullSlice (buf : List (List Nat)) (slice : List Nat) : List (List Nat) :=
  buf ++ [slice]

/-- Contents of `recv_message_buffer_` after the read loop
(`ContinueReadingRecvMessage` / `OnByteStreamNext`) has pulled the given
slices in order, starting from the freshly initialized empty buffer. -/
def recvBuffer (slices : List (List Nat)) : List (List Nat) :=
  slices.foldl pullSlice []

/-- Value of the `length` field of a `grpc_slice_buffer` holding `chunks`:
the sum of the slice lengths. -/
def sumLen (chunks : List (List Nat)) : Nat :=
  (chunks.map List.length).sum

/-- Model of `memcpy(recv_message + offset, slice_start, slice_len)`:
overwrite `src.length` bytes of `buf` starting at `off`. -/
def writeAt (buf : List Nat) (off : Nat) (src : List Nat) : List Nat :=
  buf.take off ++ src ++ buf.drop (off + src.length)

/-- Model of the multi-slice copy loop of `DoneReadingRecvMessage`: copy each
slice in sequence into `buf`, advancing the running offset by the slice
length. -/
def copyChunks (buf : List Nat) (off : Nat) : List (List Nat) → List Nat
  | [] => buf
  | c :: cs => copyChunks (writeAt buf off c) (off + c.length) cs

/-- Bytes of the `serialized_message` handed to the handler, as built by
`DoneReadingRecvMessage`: if the slice buffer holds exactly one slice, the
lone slice's bytes are passed directly; otherwise each slice is copied in
sequence into a freshly `gpr_malloc`ed buffer of the accumulated length
(`init` stands for that uninitialized allocation). -/
def deliveredBytes (chunks : List (List Nat)) (init : List Nat) : List Nat :=
  if chunks.length = 1 then chunks.headD [] else copyChunks init 0 chunks

/-- The assembled message with the fresh allocation instantiated at the
accumulated buffer length (its initial contents are irrelevant, see
`recv_message_assembly`). -/
def assembledMsg (chunks : List (List Nat)) : List Nat :=
  deliveredBytes chunks (List.replicate (sumLen chunks) 0)

/-! ### `DoneReadingRecvMessage` -/

/-- Outcome of one run of `DoneReadingRecvMessage`. -/
structure RecvOutcome where
  /-- Bytes delivered to `RecvMessageReadyLocked`, `none` when nothing was
  reported (errored read or handler already released). -/
  delivered : Option (List Nat)
  /-- Whether `cancelled_` holds after the run (a `Cancel()` call sets it). -/
  cancelledAfter : Bool
  /-- Value of `seen_response_` after the run. -/
  seenAfter : Bool
  /-- Whether a new `recv_message` batch was started to keep the stream open. -/
  newRecvStarted : Bool
  deriving Repr, DecidableEq

/-- Model of `SubchannelStreamClient::CallState::DoneReadingRecvMessage`
(lines 377-439).  On an errored read: `Cancel()`, drop the buffer, release
the read ref, report nothing.  Otherwise: assemble the message, report it to
the handler if one is present (a failed decode triggers `Cancel()`), then
store `seen_response_ = true` unconditionally and start another
`recv_message` batch. -/
def DoneReadingRecvMessage (seenBefore cancelledBefore err handlerPresent : Bool)
    (decodeOk : List Nat → Bool) (chunks : List (List Nat)) : RecvOutcome :=
  if err then
    { delivered := none, cancelledAfter := true, seenAfter := seenBefore,
      newRecvStarted := false }
  else
    let msg := assembledMsg chunks
    if handlerPresent then
      if decodeOk msg then
        { delivered := some msg, cancelledAfter := cancelledBefore,
          seenAfter := true, newRecvStarted := true }
      else
        { delivered := some msg, cancelledAfter := true,
          seenAfter := true, newRecvStarted := true }
    else
      { delivered := none, cancelledAfter := cancelledBefore,
        seenAfter := true, newRecvStarted := true }

/-! ### Trailing-metadata completion (`RecvTrailingMetadataReady`) -/

/-- Modelled from the spec: `grpc_error_get_status` (declared in
`transport/error_utils.h`, not part of the sources) translates a delivered
transport error into a status code; a transport error is represented here
directly by the status code it translates to. -/
def errorToStatus (e : Nat) : Nat := e

/-- Terminal-status extraction of `RecvTrailingMetadataReady` (lines
504-512): read the explicit status from the trailing metadata, defaulting to
`GRPC_STATUS_UNKNOWN`; then, if a transport error was delivered with the
completion, overwrite the status with the error's translation. -/
def extractTerminalStatus (mdStatus transportError : Option Nat) : Nat :=
  let status := mdStatus.getD GRPC_STATUS_UNKNOWN
  match transportError with
  | some e => errorToStatus e
  | none => status

/-- Modelled from the spec: the extraction order the specification describes
("preferring an explicit status in metadata; otherwise translating a
delivered transport error into a status", with `UNKNOWN` when neither is
present).  Stated only to be compared with `extractTerminalStatus`. -/
def extractTerminalStatusSpec (mdStatus transportError : Option Nat) : Nat :=
  match mdStatus with
  | some st => st
  | none =>
    match transportError with
    | some e => errorToStatus e
    | none => GRPC_STATUS_UNKNOWN

/-- Retry decision of `RecvTrailingMetadataReady` (line 530): retry exactly
when the extracted terminal status is not `GRPC_STATUS_UNIMPLEMENTED`. -/
def recvTrailingRetry (mdStatus transportError : Option Nat) : Bool :=
  extractTerminalStatus mdStatus transportError != GRPC_STATUS_UNIMPLEMENTED

/-! ### One attempt's inbound trace (`CallState` message loop + trailing) -/

/-- Per-attempt state visible to the inbound completions of one `CallState`. -/
structure AttemptState where
  /-- The `cancelled_` atomic flag. -/
  cancelled : Bool
  /-- The `seen_response_` atomic flag. -/
  seen : Bool
  /-- Messages delivered to `RecvMessageReadyLocked`, in order. -/
  deliveredMsgs : List (List Nat)
  /-- Terminal status reported via the trailing-metadata path, once received. -/
  terminal : Option Nat
  /-- Retry decision passed to `CallEndedLocked`, once trailing metadata ran. -/
  retryDecision : Option Bool
  deriving Repr, DecidableEq

/-- Inbound completions delivered to a `CallState` by the transport: a
`recv_message` completion carrying the pulled chunk slices (or a read
error), and the final trailing-metadata completion. -/
inductive CallEv where
  | msgRead (err : Bool) (chunks : List (List Nat))
  | trailing (mdStatus transportError : Option Nat)
  deriving Repr, DecidableEq

/-- One inbound completion processed by the `CallState`.  A `recv_message`
completion on a call whose cancellation has been issued arrives with a null
byte stream (`RecvMessageReady`, lines 488-491: the transport collaborator
nulls `recv_message_` once the cancel op it received earlier through the
FIFO call combiner takes effect), so it returns without touching any state;
otherwise the completion runs `DoneReadingRecvMessage`.  The trailing
completion extracts the terminal status and the retry decision
(`RecvTrailingMetadataReady`). -/
def attemptStep (handlerPresent : Bool) (decodeOk : List Nat → Bool)
    (st : AttemptState) : CallEv → AttemptState
  | CallEv.msgRead err chunks =>
    if st.cancelled then st
    else
      let r := DoneReadingRecvMessage st.seen st.cancelled err handlerPresent
        decodeOk chunks
      { st with
        cancelled := r.cancelledAfter
        seen := r.seenAfter
        deliveredMsgs := st.deliveredMsgs ++
          (match r.delivered with | some m => [m] | none => []) }
  | CallEv.trailing md te =>
    { st with
      terminal := some (extractTerminalStatus md te)
      retryDecision := some (recvTrailingRetry md te) }

/-- A whole inbound trace of one attempt. -/
def attemptRun (handlerPresent : Bool) (decodeOk : List Nat → Bool)
    (st : AttemptState) (evs : List CallEv) : AttemptState :=
  evs.foldl (attemptStep handlerPresent decodeOk) st

/-- Attempt state at call start. -/
def attemptInit : AttemptState :=
  { cancelled := false, seen := false, deliveredMsgs := [],
    terminal := none, retryDecision := none }

/-! ### Controller state machine (`SubchannelStreamClient`) -/

/-- Controller state guarded by `mu_`, together with ghost counters for the
externally observable actions.  `activeCall` models the single `call_state_`
slot (an `OrphanablePtr`), holding the id of the live `CallState` if any;
`nextId` supplies fresh ids.  `created` counts `CallState` constructions,
`armed` counts timer arms, `timerRefTaken`/`timerRefReleased` count the
lifetime refs taken at `grpc_timer_init` and released at the end of
`OnRetryTimer`, `orphanUnrefs` counts the self-unref done by `Orphan`, and
`doubleStart` records a violation of the `GPR_ASSERT(call_state_ ==
nullptr)` precondition of `StartCallLocked`. -/
structure ClientState where
  handler : Bool
  activeCall : Option Nat
  nextId : Nat
  timerPending : Bool
  backoffAttempts : Nat
  created : Nat
  armed : Nat
  timerRefTaken : Nat
  timerRefReleased : Nat
  orphanUnrefs : Nat
  doubleStart : Bool
  deriving Repr, DecidableEq

/-- Model of `StartRetryTimerLocked` (lines 127-147): notify the handler if
present (no state effect), compute `NextAttemptTime` (which bumps the
backoff policy's internal attempt counter), take a self ref for the timer
callback, record `retry_timer_callback_pending_ = true` and arm the timer. -/
def StartRetryTimerLocked (s : ClientState) : ClientState :=
  { s with
    backoffAttempts := s.backoffAttempts + 1
    timerRefTaken := s.timerRefTaken + 1
    timerPending := true
    armed := s.armed + 1 }

/-- Model of `StartCallLocked` (lines 113-125) together with the
creation-failure branch of `CallState::StartCallLocked` (lines 226-236): a
no-op when the handler has been released; otherwise asserts the active-call
slot empty (`doubleStart` records a violation), notifies the handler,
constructs the new `CallState` and starts it.  When construction of the
underlying call fails (`ok = false`), the new `CallState` immediately runs
`CallEndedLocked(retry=true)` with `seen_response_` still false, which
clears the slot and arms the retry timer. -/
def StartCallLocked (ok : Bool) (s : ClientState) : ClientState :=
  if s.handler = false then s
  else if ok then
    { s with
      doubleStart := s.doubleStart || s.activeCall.isSome
      activeCall := some s.nextId
      nextId := s.nextId + 1
      created := s.created + 1 }
  else
    StartRetryTimerLocked
      { s with
        doubleStart := s.doubleStart || s.activeCall.isSome
        activeCall := none
        nextId := s.nextId + 1
        created := s.created + 1 }

/-- Model of `CallState::CallEndedLocked` (lines 533-556), invoked by the
`CallState` with id `id` whose `seen_response_` flag is `seen`: act only if
that `CallState` is still the controller's recorded active call; then clear
the slot and, when retry was requested, either reset the backoff and restart
immediately (`seen = true`) or arm the delayed retry timer (`seen = false`).
`ok` is whether the restarted call's construction succeeds. -/
def CallEndedLocked (id : Nat) (retry seen ok : Bool) (s : ClientState) :
    ClientState :=
  if s.activeCall = some id then
    if retry then
      if seen then
        StartCallLocked ok { s with activeCall := none, backoffAttempts := 0 }
      else StartRetryTimerLocked { s with activeCall := none }
    else { s with activeCall := none }
  else s

/-- Model of `Orphan` (lines 92-106): under the lock release the handler,
reset the active `CallState` (triggering its cancellation protocol) and
request cancellation of the retry timer if pending (the pending flag itself
is cleared only when the timer callback runs); then release the
controller's own lifetime reference. -/
def Orphan (s : ClientState) : ClientState :=
  { s with
    handler := false
    activeCall := none
    orphanUnrefs := s.orphanUnrefs + 1 }

/-- Release of the lifetime reference that `OnRetryTimer` holds, done after
the lock is dropped on every path. -/
def releaseTimerRef (s : ClientState) : ClientState :=
  { s with timerRefReleased := s.timerRefReleased + 1 }

/-- Model of `OnRetryTimer` (lines 149-165): under the lock clear
`retry_timer_callback_pending_`; if the handler is still present, the timer
fired genuinely (`err = false`) and no call is active, start a new call;
finally release the ref taken when the timer was armed. -/
def OnRetryTimer (err ok : Bool) (s : ClientState) : ClientState :=
  releaseTimerRef
    (if s.handler = true ∧ err = false ∧ s.activeCall = none then
      StartCallLocked ok { s with timerPending := false }
    else { s with timerPending := false })

/-- Controller events delivered from arbitrary worker contexts: shutdown,
a `CallState`'s termination report, and the retry-timer callback. -/
inductive Ev where
  | orphanEv
  | callEnded (id : Nat) (retry seen ok : Bool)
  | timerFired (err ok : Bool)
  deriving Repr, DecidableEq

/-- Effect of one event on the controller state. -/
def stepF : Ev → ClientState → ClientState
  | Ev.orphanEv, s => Orphan s
  | Ev.callEnded id retry seen ok, s => CallEndedLocked id retry seen ok s
  | Ev.timerFired err ok, s => OnRetryTimer err ok s

/-- Scheduling constraint: the timer callback runs exactly once per arm, so
it can only fire while the pending flag is set.  Termination reports and
shutdown may arrive at any time (a superset of the real schedules, in which
each `CallState` reports at most once). -/
def enabled : Ev → ClientState → Prop
  | Ev.timerFired _ _, s => s.timerPending = true
  | Ev.callEnded _ _ _ _, _ => True
  | Ev.orphanEv, _ => True

/-- Controller state as set up by the constructor, before its `StartCall`. -/
def preInitState : ClientState :=
  { handler := true, activeCall := none, nextId := 0, timerPending := false,
    backoffAttempts := 0, created := 0, armed := 0, timerRefTaken := 0,
    timerRefReleased := 0, orphanUnrefs := 0, doubleStart := false }

/-- Reachable controller states: the constructor immediately starts the
first attempt (whose creation may fail), and then any enabled event may be
delivered. -/
inductive Reachable : ClientState → Prop
  | init (ok : Bool) : Reachable (StartCallLocked ok preInitState)
  | step {s : ClientState} (e : Ev) :
      Reachable s → enabled e s → Reachable (stepF e s)

/-- Controller invariant: the handler is gone only with an empty active-call
slot; an active call and a pending timer never coexist; the double-start
assertion never fired; the active call's id is fresh-bounded; and the timer
refs balance to exactly the pending arm. -/
def Inv (s : ClientState) : Prop :=
  (s.handler = false → s.activeCall = none)
  ∧ (s.activeCall = none ∨ s.timerPending = false)
  ∧ s.doubleStart = false
  ∧ (∀ id, s.activeCall = some id → id < s.nextId)
  ∧ s.timerRefTaken = s.timerRefReleased + (if s.timerPending then 1 else 0)

/-! ### Invariant preservation -/

lemma startCall_noop (ok : Bool) (s : ClientState) (hh : s.handler = false) :
    StartCallLocked ok s = s := by
  unfold StartCallLocked
  rw [if_pos hh]

lemma startCall_spec (ok : Bool) (s : ClientState) (hh : s.handler = true)
    (h1 : s.activeCall = none) :
    StartCallLocked ok s =
      if ok then
        { s with
          activeCall := some s.nextId
          nextId := s.nextId + 1
          created := s.created + 1 }
      else
        { s with
          activeCall := none
          nextId := s.nextId + 1
          created := s.created + 1
          backoffAttempts := s.backoffAttempts + 1
          timerRefTaken := s.timerRefTaken + 1
          timerPending := true
          armed := s.armed + 1 } := by
  cases ok <;> simp [StartCallLocked, StartRetryTimerLocked, hh, h1]

lemma inv_startRetry (s : ClientState) (h1 : s.activeCall = none)
    (_h2 : s.timerPending = false) (h3 : s.doubleStart = false)
    (h5 : s.timerRefTaken = s.timerRefReleased) :
    Inv (StartRetryTimerLocked s) := by
  unfold Inv StartRetryTimerLocked
  simp [h1, h3, h5]

lemma inv_startCall (ok : Bool) (s : ClientState)
    (h1 : s.activeCall = none) (h2 : s.timerPending = false)
    (h3 : s.doubleStart = false)
    (h5 : s.timerRefTaken = s.timerRefReleased) :
    Inv (StartCallLocked ok s) := by
  by_cases hh : s.handler = false
  · rw [startCall_noop ok s hh]
    unfold Inv
    simp [h1, h2, h3, h5]
  · have hh' : s.handler = true := by
      revert hh; cases s.handler <;> simp
    rw [startCall_spec ok s hh' h1]
    cases ok <;> unfold Inv <;> simp [hh', h2, h3, h1, h5]

lemma inv_callEnded (id : Nat) (retry seen ok : Bool) (s : ClientState)
    (h : Inv s) : Inv (CallEndedLocked id retry seen ok s) := by
  obtain ⟨hho, hmx, hds, hfr, hrf⟩ := h
  unfold CallEndedLocked
  by_cases hac : s.activeCall = some id
  · have htp : s.timerPending = false := by
      cases hmx with
      | inl h0 => rw [h0] at hac; exact Option.noConfusion hac
      | inr h0 => exact h0
    have hrf' : s.timerRefTaken = s.timerRefReleased := by
      rw [htp] at hrf
      simpa using hrf
    rw [if_pos hac]
    cases retry with
    | true =>
      rw [if_pos rfl]
      cases seen with
      | true =>
        rw [if_pos rfl]
        exact inv_startCall ok _ rfl htp hds hrf'
      | false =>
        rw [if_neg Bool.false_ne_true]
        exact inv_startRetry _ rfl htp hds hrf'
    | false =>
      rw [if_neg Bool.false_ne_true]
      refine ⟨fun _ => rfl, Or.inl rfl, hds, fun i hi => Option.noConfusion hi, ?_⟩
      simp [htp, hrf']
  · rw [if_neg hac]
    exact ⟨hho, hmx, hds, hfr, hrf⟩

lemma inv_orphan (s : ClientState) (h : Inv s) : Inv (Orphan s) := by
  obtain ⟨_, _, hds, _, hrf⟩ := h
  exact ⟨fun _ => rfl, Or.inl rfl, hds, fun i hi => Option.noConfusion hi, hrf⟩

lemma inv_onRetryTimer (err ok : Bool) (s : ClientState) (h : Inv s)
    (hp : s.timerPending = true) : Inv (OnRetryTimer err ok s) := by
  obtain ⟨hho, hmx, hds, hfr, hrf⟩ := h
  have hrf' : s.timerRefTaken = s.timerRefReleased + 1 := by
    rw [hp] at hrf
    simpa using hrf
  unfold OnRetryTimer releaseTimerRef
  by_cases hc : s.handler = true ∧ err = false ∧ s.activeCall = none
  · rw [if_pos hc]
    rw [startCall_spec ok { s with timerPending := false }
      (show ({ s with timerPending := false } : ClientState).handler = true from hc.1)
      (show ({ s with timerPending := false } : ClientState).activeCall = none from hc.2.2)]
    cases ok <;> unfold Inv <;> simp [hc.1, hc.2.2, hds, hrf']
  · rw [if_neg hc]
    refine ⟨fun hx => hho hx, Or.inr rfl, hds, fun i hi => hfr i hi, ?_⟩
    simp [hrf']

lemma inv_step (e : Ev) (s : ClientState) (h : Inv s) (he : enabled e s) :
    Inv (stepF e s) := by
  cases e with
  | orphanEv => exact inv_orphan s h
  | callEnded id retry seen ok => exact inv_callEnded id retry seen ok s h
  | timerFired err ok => exact inv_onRetryTimer err ok s h he

lemma inv_reachable {s : ClientState} (h : Reachable s) : Inv s := by
  induction h with
  | init ok => exact inv_startCall ok preInitState rfl rfl rfl rfl
  | step e _ he ih => exact inv_step e _ ih he

/-- States reachable from a given state by delivering enabled events. -/
inductive ReachFrom : ClientState → ClientState → Prop
  | refl (s : ClientState) : ReachFrom s s
  | step {s t : ClientState} (e : Ev) :
      ReachFrom s t → enabled e t → ReachFrom s (stepF e t)

lemma orphaned_frozen_aux {s s' : ClientState} (hr : ReachFrom s s')
    (hh : s.handler = false) (h0 : s.activeCall = none) :
    s'.handler = false ∧ s'.activeCall = none
      ∧ s'.created = s.created ∧ s'.armed = s.armed := by
  induction hr with
  | refl => exact ⟨hh, h0, rfl, rfl⟩
  | step e hr' he ih =>
    obtain ⟨ih1, ih2, ih3, ih4⟩ := ih
    cases e with
    | orphanEv => exact ⟨rfl, rfl, ih3, ih4⟩
    | callEnded id retry seen ok =>
      simp only [stepF]
      rw [CallEndedLocked, if_neg (by rw [ih2]; exact fun hx => Option.noConfusion hx)]
      exact ⟨ih1, ih2, ih3, ih4⟩
    | timerFired err ok =>
      simp only [stepF]
      rw [OnRetryTimer,
        if_neg (fun hx => by rw [ih1] at hx; exact Bool.noConfusion hx.1)]
      exact ⟨ih1, ih2, ih3, ih4⟩

/-! ### Assembly lemmas -/

lemma writeAt_length (buf src : List Nat) (off : Nat)
    (h : off + src.length ≤ buf.length) :
    (writeAt buf off src).length = buf.length := by
  simp [writeAt]
  omega

lemma copyChunks_join (cs : List (List Nat)) :
    ∀ (buf : List Nat) (off : Nat), buf.length = off + sumLen cs →
      copyChunks buf off cs = buf.take off ++ cs.flatten := by
  induction cs with
  | nil =>
    intro buf off h
    simp [sumLen] at h
    simp [copyChunks, List.take_of_length_le (le_of_eq h)]
  | cons c cs ih =>
    intro buf off h
    have hs : sumLen (c :: cs) = c.length + sumLen cs := by simp [sumLen]
    have hble : off + c.length ≤ buf.length := by rw [h, hs]; omega
    have hlen : (writeAt buf off c).length = (off + c.length) + sumLen cs := by
      rw [writeAt_length buf c off hble, h, hs]
      omega
    rw [copyChunks, ih (writeAt buf off c) (off + c.length) hlen]
    have htake : (writeAt buf off c).take (off + c.length) = buf.take off ++ c := by
      rw [writeAt, List.take_left' (by simp [List.length_take]; omega)]
    rw [htake]
    simp

lemma flatten_length (cs : List (List Nat)) : cs.flatten.length = sumLen cs := by
  simp [sumLen]

lemma recvBuffer_aux (slices : List (List Nat)) :
    ∀ acc : List (List Nat), slices.foldl pullSlice acc = acc ++ slices := by
  induction slices with
  | nil => intro acc; simp [List.foldl]
  | cons c cs ih => intro acc; simp [List.foldl, pullSlice, ih]

lemma callEnded_seen_spec (s : ClientState) (id : Nat) (ok : Bool)
    (hact : s.activeCall = some id) :
    CallEndedLocked id true true ok s =
      StartCallLocked ok { s with activeCall := none, backoffAttempts := 0 } := by
  rw [CallEndedLocked, if_pos hact, if_pos rfl, if_pos rfl]

/-! ### Claims -/

/-- C1: when a `CallState` reports termination with retry requested and it is
still the recorded active call, the slot is cleared and: with
`seen_response_` set the backoff is reset and a new call is started in the
same synchronous step (zero delay, no timer); with `seen_response_` clear
the delayed retry timer is armed and no call is started.  A report from a
`CallState` that is no longer the recorded active call changes nothing. -/
theorem callEnded_retry_policy (s : ClientState) (id : Nat)
    (hact : s.activeCall = some id) (hh : s.handler = true)
    (hfresh : id < s.nextId) (hp : s.timerPending = false) :
    (∀ ok : Bool,
      (CallEndedLocked id true true ok s).created = s.created + 1
      ∧ (CallEndedLocked id true true ok s).activeCall ≠ some id
      ∧ (ok = true → (CallEndedLocked id true true ok s).backoffAttempts = 0
          ∧ (CallEndedLocked id true true ok s).armed = s.armed
          ∧ (CallEndedLocked id true true ok s).timerPending = false)
      ∧ (ok = false → (CallEndedLocked id true true ok s).backoffAttempts = 1))
    ∧ (∀ ok : Bool,
      (CallEndedLocked id true false ok s).armed = s.armed + 1
      ∧ (CallEndedLocked id true false ok s).timerPending = true
      ∧ (CallEndedLocked id true false ok s).created = s.created
      ∧ (CallEndedLocked id true false ok s).activeCall = none)
    ∧ (∀ (retry seen ok : Bool) (t : ClientState),
      t.activeCall ≠ some id → CallEndedLocked id retry seen ok t = t) := by
  refine ⟨?_, ?_, ?_⟩
  · intro ok
    have hsh : ({ s with activeCall := none, backoffAttempts := 0 } :
        ClientState).handler = true := hh
    rw [callEnded_seen_spec s id ok hact, startCall_spec ok _ hsh rfl]
    cases ok
    · exact ⟨rfl, fun h0 => Option.noConfusion h0,
        fun h0 => Bool.noConfusion h0, fun _ => rfl⟩
    · refine ⟨rfl, ?_, fun _ => ⟨rfl, rfl, hp⟩, fun h0 => Bool.noConfusion h0⟩
      intro h0
      have h1 : s.nextId = id := Option.some.inj h0
      omega
  · intro ok
    rw [CallEndedLocked, if_pos hact, if_pos rfl, if_neg Bool.false_ne_true]
    exact ⟨rfl, rfl, rfl, rfl⟩
  · intro retry seen ok t hne
    rw [CallEndedLocked, if_neg hne]

theorem callEnded_retry_policy_witness :
    (CallEndedLocked 0 true true true (StartCallLocked true preInitState)).created
      = (StartCallLocked true preInitState).created + 1
    ∧ (CallEndedLocked 0 true false true (StartCallLocked true preInitState)).armed
      = (StartCallLocked true preInitState).armed + 1 := by
  have h := callEnded_retry_policy (StartCallLocked true preInitState) 0
    (by decide) (by decide) (by decide) (by decide)
  exact ⟨(h.1 true).1, (h.2.1 true).1⟩

/-- C2: the trailing-metadata completion requests retry exactly when the
extracted terminal status is not `GRPC_STATUS_UNIMPLEMENTED`; with an
`UNIMPLEMENTED` terminal status no call is created and no retry timer is
armed, regardless of `seen_response_`. -/
theorem unimplemented_never_retried :
    (∀ md te : Option Nat,
      recvTrailingRetry md te = false
        ↔ extractTerminalStatus md te = GRPC_STATUS_UNIMPLEMENTED)
    ∧ (∀ (md te : Option Nat) (s : ClientState) (id : Nat) (seen ok : Bool),
      extractTerminalStatus md te = GRPC_STATUS_UNIMPLEMENTED →
        (CallEndedLocked id (recvTrailingRetry md te) seen ok s).created = s.created
        ∧ (CallEndedLocked id (recvTrailingRetry md te) seen ok s).armed = s.armed
        ∧ (CallEndedLocked id (recvTrailingRetry md te) seen ok s).timerPending
            = s.timerPending) := by
  constructor
  · intro md te
    simp [recvTrailingRetry]
  · intro md te s id seen ok hu
    have hf : recvTrailingRetry md te = false := by
      simp [recvTrailingRetry, hu]
    rw [hf, CallEndedLocked]
    by_cases hac : s.activeCall = some id
    · rw [if_pos hac, if_neg Bool.false_ne_true]
      exact ⟨rfl, rfl, rfl⟩
    · rw [if_neg hac]
      exact ⟨rfl, rfl, rfl⟩

theorem unimplemented_never_retried_witness :
    (CallEndedLocked 0 (recvTrailingRetry (some GRPC_STATUS_UNIMPLEMENTED) none)
        true true (StartCallLocked true preInitState)).created
      = (StartCallLocked true preInitState).created :=
  (unimplemented_never_retried.2 (some GRPC_STATUS_UNIMPLEMENTED) none
    (StartCallLocked true preInitState) 0 true true (by decide)).1

/-- C3 counterexample: when the trailing metadata carries an explicit status
and a transport error is also delivered, the code reports the error's
translation, not the explicit metadata status preferred by the claim. -/
theorem status_extraction_prefers_error :
    extractTerminalStatus (some GRPC_STATUS_DEADLINE_EXCEEDED)
        (some GRPC_STATUS_UNAVAILABLE) = GRPC_STATUS_UNAVAILABLE
    ∧ extractTerminalStatusSpec (some GRPC_STATUS_DEADLINE_EXCEEDED)
        (some GRPC_STATUS_UNAVAILABLE) = GRPC_STATUS_DEADLINE_EXCEEDED
    ∧ GRPC_STATUS_UNAVAILABLE ≠ GRPC_STATUS_DEADLINE_EXCEEDED :=
  ⟨rfl, rfl, by decide⟩

/-- C3 (amended): a delivered transport error always decides the terminal
status; the explicit metadata status is used only when no transport error
was delivered, and `GRPC_STATUS_UNKNOWN` is the fallback when neither is
present. -/
theorem status_extraction_amended :
    (∀ (md : Option Nat) (e : Nat),
      extractTerminalStatus md (some e) = errorToStatus e)
    ∧ (∀ st : Nat, extractTerminalStatus (some st) none = st)
    ∧ extractTerminalStatus none none = GRPC_STATUS_UNKNOWN :=
  ⟨fun _ _ => rfl, fun _ => rfl, rfl⟩

/-- C4 counterexample: a successfully read message with the handler already
released is not delivered to anyone, yet `seen_response_` is still stored
true (line 426 runs unconditionally on the non-error path), contradicting
the claim that the flag is set exactly on successful delivery. -/
theorem seen_response_without_delivery :
    (DoneReadingRecvMessage false false false false (fun _ => true) [[1]]).delivered
      = none
    ∧ (DoneReadingRecvMessage false false false false (fun _ => true) [[1]]).seenAfter
      = true :=
  ⟨rfl, rfl⟩

/-- C4 (amended): `seen_response_` is set by every message read that
completes without a read error — regardless of whether delivery to the
handler happens or its decode succeeds — and is left unchanged by an
errored message read. -/
theorem seen_response_set_iff_read_ok :
    ∀ (sb cb err hp : Bool) (d : List Nat → Bool) (chunks : List (List Nat)),
      (DoneReadingRecvMessage sb cb err hp d chunks).seenAfter = (!err || sb) := by
  intro sb cb err hp d chunks
  cases err
  · simp only [DoneReadingRecvMessage, Bool.not_false, Bool.true_or, if_false,
      Bool.false_eq_true]
    split_ifs <;> rfl
  · simp [DoneReadingRecvMessage]

/-- C5: a failed decode of a received message cancels the attempt; once the
cancellation is in effect no further messages are delivered for the attempt;
a `recv_message` completion never sets the terminal status or the retry
decision (the decode error is not reported as a terminal status); and the
attempt's eventual trailing completion carrying the cancellation's
transport error yields a retriable outcome. -/
theorem decode_failure_semantics :
    ∀ d : List Nat → Bool,
      (∀ (st : AttemptState) (chunks : List (List Nat)),
        st.cancelled = false → d (assembledMsg chunks) = false →
          (attemptStep true d st (CallEv.msgRead false chunks)).cancelled = true
          ∧ (attemptStep true d st (CallEv.msgRead false chunks)).deliveredMsgs
              = st.deliveredMsgs ++ [assembledMsg chunks])
      ∧ (∀ (st : AttemptState) (evs : List CallEv), st.cancelled = true →
          (attemptRun true d st evs).deliveredMsgs = st.deliveredMsgs
          ∧ (attemptRun true d st evs).cancelled = true)
      ∧ (∀ (st : AttemptState) (err : Bool) (chunks : List (List Nat)),
          (attemptStep true d st (CallEv.msgRead err chunks)).terminal = st.terminal
          ∧ (attemptStep true d st (CallEv.msgRead err chunks)).retryDecision
              = st.retryDecision)
      ∧ (∀ (st : AttemptState) (md : Option Nat),
          (attemptStep true d st
              (CallEv.trailing md (some GRPC_STATUS_CANCELLED))).retryDecision
            = some true) := by
  intro d
  refine ⟨?_, ?_, ?_, ?_⟩
  · intro st chunks hc hd
    simp [attemptStep, DoneReadingRecvMessage, hc, hd]
  · intro st evs
    induction evs generalizing st with
    | nil => intro hc; exact ⟨rfl, hc⟩
    | cons e es ih =>
      intro hc
      cases e with
      | msgRead err chunks =>
        have hstep : attemptStep true d st (CallEv.msgRead err chunks) = st := by
          simp [attemptStep, hc]
        show (attemptRun true d
              (attemptStep true d st (CallEv.msgRead err chunks)) es).deliveredMsgs
            = st.deliveredMsgs
          ∧ (attemptRun true d
              (attemptStep true d st (CallEv.msgRead err chunks)) es).cancelled
            = true
        rw [hstep]
        exact ih st hc
      | trailing md te =>
        have h := ih { st with
          terminal := some (extractTerminalStatus md te)
          retryDecision := some (recvTrailingRetry md te) } hc
        exact h
  · intro st err chunks
    by_cases hc : st.cancelled = true
    · simp [attemptStep, hc]
    · simp [attemptStep, hc]
  · intro st md
    rfl

theorem decode_failure_semantics_witness :
    (attemptStep true (fun _ => false) attemptInit
        (CallEv.msgRead false [[1]])).cancelled = true :=
  ((decode_failure_semantics (fun _ => false)).1 attemptInit [[1]] rfl rfl).1

/-- C6: in every reachable controller state, the single active-call slot
(modelled by the `Option`-valued `activeCall` field, so at most one attempt
is ever recorded) and a pending retry timer are mutually exclusive, and the
`GPR_ASSERT(call_state_ == nullptr)` guard of `StartCallLocked` is never
violated (no attempt is ever started while one is active). -/
theorem single_active_attempt :
    ∀ s : ClientState, Reachable s →
      (s.activeCall = none ∨ s.timerPending = false) ∧ s.doubleStart = false := by
  intro s h
  obtain ⟨_, hmx, hds, _, _⟩ := inv_reachable h
  exact ⟨hmx, hds⟩

theorem single_active_attempt_witness :
    ((StartCallLocked true preInitState).activeCall = none
        ∨ (StartCallLocked true preInitState).timerPending = false)
      ∧ (StartCallLocked true preInitState).doubleStart = false :=
  single_active_attempt _ (Reachable.init true)

/-- C7: from any reachable state in which the controller is orphaned
(handler released), every subsequently reachable state — including a retry
timer callback firing after shutdown and a stray termination report — has
created no new `CallState` and armed no new retry timer, and the handler
stays released. -/
theorem orphaned_quiescent :
    ∀ s s' : ClientState, Reachable s → s.handler = false → ReachFrom s s' →
      s'.created = s.created ∧ s'.armed = s.armed
      ∧ s'.handler = false ∧ s'.activeCall = none := by
  intro s s' hre hh hrf
  have h0 : s.activeCall = none := (inv_reachable hre).1 hh
  obtain ⟨a, b, c, d⟩ := orphaned_frozen_aux hrf hh h0
  exact ⟨c, d, a, b⟩

theorem orphaned_quiescent_witness :
    (stepF (Ev.timerFired true true) (Orphan (StartCallLocked false preInitState))).created
      = (Orphan (StartCallLocked false preInitState)).created := by
  have hre : Reachable (Orphan (StartCallLocked false preInitState)) :=
    Reachable.step Ev.orphanEv (Reachable.init false) trivial
  have hrf : ReachFrom (Orphan (StartCallLocked false preInitState))
      (stepF (Ev.timerFired true true) (Orphan (StartCallLocked false preInitState))) :=
    ReachFrom.step (Ev.timerFired true true) (ReachFrom.refl _)
      (show (Orphan (StartCallLocked false preInitState)).timerPending = true
        by decide)
  exact (orphaned_quiescent _ _ hre (by decide) hrf).1

/-- C8 counterexample: `Orphan` is not literally idempotent, because each
invocation ends with one `Unref` of the controller's lifetime reference
(line 105), so a second invocation has the additional observable effect of
releasing one more reference. -/
theorem orphan_double_unref :
    Orphan (Orphan (StartCallLocked true preInitState))
      ≠ Orphan (StartCallLocked true preInitState) := by
  decide

/-- C8 (amended): from any state, one `Orphan` releases the handler and the
active call and releases exactly one lifetime reference; a second `Orphan`
changes nothing else — its only additional effect is releasing one further
lifetime reference (the code expects the owner to call it exactly once). -/
theorem orphan_idempotent_amended :
    ∀ s : ClientState,
      (Orphan s).handler = false ∧ (Orphan s).activeCall = none
      ∧ (Orphan s).orphanUnrefs = s.orphanUnrefs + 1
      ∧ Orphan (Orphan s)
          = { Orphan s with orphanUnrefs := (Orphan s).orphanUnrefs + 1 } :=
  fun _ => ⟨rfl, rfl, rfl, rfl⟩

/-- C9: the retry-timer callback always releases exactly the one lifetime
reference taken when the timer was armed (and in every reachable state the
arm/release counts balance to the pending flag); it starts a new call
exactly when the handler is present, the fire was genuine and no call is
active; and otherwise its whole effect is clearing the pending flag and
releasing the reference. -/
theorem onRetryTimer_contract :
    (∀ (s : ClientState) (err ok : Bool),
      (OnRetryTimer err ok s).timerRefReleased = s.timerRefReleased + 1
      ∧ (OnRetryTimer err ok s).created
          = s.created
            + (if s.handler = true ∧ err = false ∧ s.activeCall = none then 1 else 0)
      ∧ (¬(s.handler = true ∧ err = false ∧ s.activeCall = none) →
          OnRetryTimer err ok s
            = { s with
                timerPending := false
                timerRefReleased := s.timerRefReleased + 1 })
      ∧ (ok = true → (OnRetryTimer err ok s).timerPending = false))
    ∧ (∀ s : ClientState, Reachable s →
        s.timerRefTaken = s.timerRefReleased + (if s.timerPending then 1 else 0)) := by
  constructor
  · intro s err ok
    by_cases hc : s.handler = true ∧ err = false ∧ s.activeCall = none
    · have hsh : ({ s with timerPending := false } : ClientState).handler = true :=
        hc.1
      have hsa : ({ s with timerPending := false } : ClientState).activeCall = none :=
        hc.2.2
      unfold OnRetryTimer releaseTimerRef
      rw [if_pos hc, startCall_spec ok _ hsh hsa]
      cases ok <;> simp [hc]
    · unfold OnRetryTimer releaseTimerRef
      rw [if_neg hc]
      exact ⟨rfl, by simp [hc], fun _ => rfl, fun _ => rfl⟩
  · intro s h
    exact (inv_reachable h).2.2.2.2

theorem onRetryTimer_contract_witness :
    (OnRetryTimer true true (StartCallLocked false preInitState)).timerRefReleased
      = (StartCallLocked false preInitState).timerRefReleased + 1
    ∧ (StartCallLocked false preInitState).timerRefTaken
      = (StartCallLocked false preInitState).timerRefReleased
        + (if (StartCallLocked false preInitState).timerPending then 1 else 0) :=
  ⟨(onRetryTimer_contract.1 (StartCallLocked false preInitState) true true).1,
    onRetryTimer_contract.2 _ (Reachable.init false)⟩

/-- C10: the bytes handed to the handler equal the in-order concatenation of
all chunks pulled from the message stream, for any initial contents of the
freshly allocated copy buffer of the accumulated length; in particular the
single-chunk fast path and the multi-chunk copy loop deliver identical
bytes, of length equal to the accumulated buffer length, and the slice
buffer accumulates the pulled chunks in order. -/
theorem recv_message_assembly :
    ∀ (chunks : List (List Nat)) (init : List Nat),
      init.length = sumLen chunks →
      copyChunks init 0 chunks = chunks.flatten
      ∧ deliveredBytes chunks init = chunks.flatten
      ∧ (deliveredBytes chunks init).length = sumLen chunks
      ∧ recvBuffer chunks = chunks := by
  intro chunks init h
  have hc : copyChunks init 0 chunks = chunks.flatten := by
    have h0 : init.length = 0 + sumLen chunks := by omega
    simpa using copyChunks_join chunks init 0 h0
  have hd : deliveredBytes chunks init = chunks.flatten := by
    unfold deliveredBytes
    split_ifs with h1
    · cases chunks with
      | nil => simp at h1
      | cons c cs =>
        cases cs with
        | nil => simp
        | cons d ds => simp at h1
    · exact hc
  refine ⟨hc, hd, by rw [hd, flatten_length], ?_⟩
  have := recvBuffer_aux chunks []
  simpa [recvBuffer] using this

theorem recv_message_assembly_witness :
    deliveredBytes [[1, 2], [3]] [0, 0, 0] = [1, 2, 3] := by
  have h := recv_message_assembly [[1, 2], [3]] [0, 0, 0] (by decide)
  rw [h.2.1]
  rfl

end SubchannelStream
